import Mathlib

/-!
Verification of the core MQTT client of `general-mqtt`: a shallow embedding of
its codec (`src/mqtt-client/utils`, `WireMessage.ts`), session tables and
identifier allocator, CONNACK replay, reconnect backoff, multi-host failover
decision and persistence restore (`ClientImplementation.ts`).

JavaScript strings are modelled as lists of UTF-16 code units (`JSString`);
`Uint8Array` buffers as `List Nat` of bytes, where an out-of-range
`buffer[i] = v` store is a no-op (as for a JS typed array) and in-range stores
are `List.set`.  A JS `number` field that the code tests for truthiness and
that is only ever `undefined` or a positive integer is modelled as a `Nat`
with `0` standing for the falsy values (`undefined` / `0`), matching how the
source treats them.  Functions that `throw` return `Except MqttErr`.

One property of the source shapes several definitions: `Message.ts` declares
`destinationName`, `qos`, `retained`, `duplicate`, `topic` and
`stringPayload` as accessor pairs whose getter returns and whose setter
assigns the very property they implement.  Class accessors sit on the
prototype and no own data property ever shadows them, so every read or write
of these properties re-enters the same accessor and throws a stack-overflow
`RangeError` (only `payload`, `payloadBytes` and `payloadString` work).
`messageAccessorCrash` models such a call with an explicit stack bound and
the paths that hit one (`send` of any publish, `WireMessage.encode` of a
PUBLISH with payload or CONNECT with will, the PUBLISH arm of
`decodeMessage`, `store` and `restore` of a PUBLISH record) end in
`.error .RANGE_ERROR` accordingly.
-/

namespace GeneralMqtt

/-- UTF-16 code units of a JS string. -/
abbrev JSString := List Nat

/-- Error identities the modelled code can throw: the named `Error`s built
    from `consts.ts` (`MALFORMED_UTF`, `MALFORMED_UNICODE`,
    `INVALID_STORED_DATA`, `INVALID_ARGUMENT`), plus the JS runtime errors
    the source provokes on its own: `RANGE_ERROR` is the stack-overflow
    `RangeError` raised by the self-referential `Message` accessors (see
    `messageAccessorCrash`), `TYPE_ERROR` the `TypeError` of a property
    access on `undefined`. -/
inductive MqttErr where
  | MALFORMED_UTF
  | MALFORMED_UNICODE
  | INVALID_STORED_DATA
  | INVALID_ARGUMENT
  | TOO_MANY_MESSAGES
  | RANGE_ERROR
  | TYPE_ERROR
  deriving DecidableEq, Repr

/-- `MESSAGE_TYPE` from `consts.ts`. -/
def MESSAGE_TYPE_CONNECT : Nat := 1
def MESSAGE_TYPE_CONNACK : Nat := 2
def MESSAGE_TYPE_PUBLISH : Nat := 3
def MESSAGE_TYPE_PUBACK : Nat := 4
def MESSAGE_TYPE_PUBREC : Nat := 5
def MESSAGE_TYPE_PUBREL : Nat := 6
def MESSAGE_TYPE_PUBCOMP : Nat := 7
def MESSAGE_TYPE_SUBSCRIBE : Nat := 8
def MESSAGE_TYPE_SUBACK : Nat := 9
def MESSAGE_TYPE_UNSUBSCRIBE : Nat := 10
def MESSAGE_TYPE_UNSUBACK : Nat := 11
def MESSAGE_TYPE_PINGREQ : Nat := 12
def MESSAGE_TYPE_PINGRESP : Nat := 13
def MESSAGE_TYPE_DISCONNECT : Nat := 14

/-- `MqttProtoIdentifierv3` from `consts.ts`. -/
def MqttProtoIdentifierv3 : List Nat := [0x00, 0x06, 0x4d, 0x51, 0x49, 0x73, 0x64, 0x70, 0x03]

/-- `MqttProtoIdentifierv4` from `consts.ts`. -/
def MqttProtoIdentifierv4 : List Nat := [0x00, 0x04, 0x4d, 0x51, 0x54, 0x54, 0x04]

/-- Write a byte sequence into a buffer starting at `offset`
    (models `byteStream.set(bytes, offset)`; out-of-range stores are dropped,
    as for a JS `Uint8Array`). -/
def writeBytes (buffer : List Nat) (offset : Nat) (bytes : List Nat) : List Nat :=
  match bytes with
  | [] => buffer
  | b :: rest => writeBytes (buffer.set offset b) (offset + 1) rest

/-- `writeUint16` from `utils`: skips entirely when `input` is falsy
    (`undefined` or `0`, both modelled by `0`), else writes MSB then LSB and
    advances the offset by two. -/
def writeUint16 (input : Nat) (buffer : List Nat) (offset : Nat) : List Nat × Nat :=
  if input = 0 then (buffer, offset)
  else
    let buffer := buffer.set offset ((input >>> 8) % 256) -- input >> 8 (MSB), stored as a byte
    let buffer := buffer.set (offset + 1) (input % 256)   -- input % 256 (LSB)
    (buffer, offset + 2)

/-- `readUint16` from `utils`. -/
def readUint16 (buffer : List Nat) (offset : Nat) : Nat :=
  256 * buffer.getD offset 0 + buffer.getD (offset + 1) 0

/-- The byte-emission if/else chain shared by the tail of `stringToUTF8`:
    1 to 4 UTF-8 bytes for a code point, written into `output` at `pos`. -/
def utf8Emit (charCode : Nat) (output : List Nat) (pos : Nat) : List Nat × Nat :=
  if charCode ≤ 0x7f then
    (output.set pos charCode, pos + 1)
  else if charCode ≤ 0x7ff then
    let output := output.set pos (((charCode >>> 6) &&& 0x1f) ||| 0xc0)
    let output := output.set (pos + 1) ((charCode &&& 0x3f) ||| 0x80)
    (output, pos + 2)
  else if charCode ≤ 0xffff then
    let output := output.set pos (((charCode >>> 12) &&& 0x0f) ||| 0xe0)
    let output := output.set (pos + 1) (((charCode >>> 6) &&& 0x3f) ||| 0x80)
    let output := output.set (pos + 2) ((charCode &&& 0x3f) ||| 0x80)
    (output, pos + 3)
  else
    let output := output.set pos (((charCode >>> 18) &&& 0x07) ||| 0xf0)
    let output := output.set (pos + 1) (((charCode >>> 12) &&& 0x3f) ||| 0x80)
    let output := output.set (pos + 2) (((charCode >>> 6) &&& 0x3f) ||| 0x80)
    let output := output.set (pos + 3) ((charCode &&& 0x3f) ||| 0x80)
    (output, pos + 4)

/-- The combined code point the source computes for a surrogate pair:
    `((charCode - 0xd800) << 10) + (lowCharCode - 0xdc00) + 0x10000`,
    evaluated in `Int` as JS does (the `lowCharCode - 0xdc00` intermediate
    may be negative); the result is non-negative whenever `0xd800 ≤ hi`,
    which the caller's branch guarantees. -/
def surrogateCombine (hi low : Nat) : Nat :=
  (((hi : Int) - 0xd800) * 1024 + ((low : Int) - 0xdc00) + 0x10000).toNat

/-- Loop body of `stringToUTF8` from `utils`.  A high surrogate consumes the
    following unit via `input.charCodeAt(++i)`; that lookahead is `NaN` (and
    only then does the code throw `MALFORMED_UNICODE`) exactly when the high
    surrogate is the last unit of the string. -/
def stringToUTF8Go : JSString → List Nat → Nat → Except MqttErr (List Nat)
  | [], output, _ => .ok output
  | c :: rest, output, pos =>
    if 0xd800 ≤ c ∧ c ≤ 0xdbff then
      match rest with
      | [] => .error .MALFORMED_UNICODE
      | low :: rest' =>
        let (output, pos) := utf8Emit (surrogateCombine c low) output pos
        stringToUTF8Go rest' output pos
    else
      let (output, pos) := utf8Emit c output pos
      stringToUTF8Go rest output pos

/-- `stringToUTF8` from `utils`. -/
def stringToUTF8 (input : JSString) (output : List Nat) (start : Nat) :
    Except MqttErr (List Nat) :=
  stringToUTF8Go input output start

/-- Loop of `UTF8Length` from `utils` (on a string known to be present). -/
def UTF8LengthGo : JSString → Nat
  | [] => 0
  | c :: rest =>
    if 0x7ff < c then
      if 0xd800 ≤ c ∧ c ≤ 0xdbff then
        -- surrogate pair: skip the next unit (i++) and count 4 bytes
        match rest with
        | [] => 4
        | _ :: rest' => 4 + UTF8LengthGo rest'
      else 3 + UTF8LengthGo rest
    else if 0x7f < c then 2 + UTF8LengthGo rest
    else 1 + UTF8LengthGo rest

/-- `UTF8Length` from `utils`: `0` for a falsy input (`undefined`, `null` or
    the empty string). -/
def UTF8Length : Option JSString → Nat
  | none => 0
  | some s => UTF8LengthGo s

/-- `writeString` from `utils`: skips entirely when `input` is falsy
    (`undefined`, `null` or the empty string); otherwise writes the 16-bit
    length prefix, the UTF-8 bytes, and returns `offset + utf8Length`. -/
def writeString (input : Option JSString) (utf8Length : Nat) (buffer : List Nat)
    (offset : Nat) : Except MqttErr (List Nat × Nat) :=
  match input with
  | none => .ok (buffer, offset)
  | some s =>
    if s.isEmpty then .ok (buffer, offset)
    else do
      let (buffer, offset) := writeUint16 utf8Length buffer offset
      let buffer ← stringToUTF8 s buffer offset
      .ok (buffer, offset + utf8Length)

/-- Body of `encodeMBI` from `utils`: a do/while loop that emits
    `number % 128` with continuation bit `0x80`, shifting by 7 each round,
    and stops after at most four bytes (`numBytes < 4`).  `remBytes` stands
    for `4 - numBytes`, so the loop is entered with `remBytes = 4`. -/
def encodeMBIGo : Nat → Nat → List Nat
  | _, 0 => []
  | number, remBytes + 1 =>
    let digit := number % 128
    let number' := number >>> 7
    if number' > 0 then
      if remBytes > 0 then (digit ||| 0x80) :: encodeMBIGo number' remBytes
      else [digit ||| 0x80] -- fourth byte emitted: loop exits on numBytes < 4
    else [digit]

/-- `encodeMBI` from `utils`. -/
def encodeMBI (number : Nat) : List Nat := encodeMBIGo number 4

/-- The remaining-length loop of `decodeMessage` from `utils`: reads bytes,
    accumulating `(digit & 0x7f) * multiplier`, while the continuation bit
    `0x80` is set.  The first argument is `input.drop pos`; running out of
    bytes (`pos === input.length`) yields `none`, the caller's partial-frame
    signal.  On success returns the value and the position one past the last
    length byte. -/
def decodeMBIGo : List Nat → Nat → Nat → Nat → Option (Nat × Nat)
  | [], _, _, _ => none
  | digit :: rest, pos, multiplier, acc =>
    let acc := acc + (digit &&& 0x7f) * multiplier
    if digit &&& 0x80 ≠ 0 then decodeMBIGo rest (pos + 1) (multiplier * 128) acc
    else some (acc, pos + 1)

/-- `returnCode` of a `WireMessage`: a single byte (CONNACK) or a byte
    sequence (SUBACK), `Uint8Array | number` in the source. -/
inductive ReturnCode where
  | code (n : Nat)
  | codes (bytes : List Nat)
  deriving DecidableEq, Repr

/-- An application `Message` as used inside a `WireMessage`
    (`payloadMessage` / `willMessage`).  In Message.ts only `payload` is a
    real data property — exposed through the WORKING `payloadBytes` /
    `payloadString` getters, modelled by the `payloadBytes` field here.
    `destinationName`, `qos`, `retained` and `duplicate` are
    self-referential accessor pairs with NO backing store (the getter
    returns `this.<name>`, the setter assigns `this.<name>`): every read or
    write of them re-enters the same accessor and never returns (see
    `messageAccessorCrash`).  The remaining fields of this record therefore
    only carry the values the surrounding code ATTEMPTS to associate with a
    message; the sole modelled code that would read them is
    `encodeHeaderInfo`'s intended-arithmetic branches, which
    `WireMessage.encode`'s crash guard makes unreachable. -/
structure MqttMessageM where
  destinationName : Option JSString := none
  payloadBytes : List Nat := []
  qos : Nat := 0
  retained : Bool := false
  duplicate : Bool := false
  deriving DecidableEq, Repr

/-- The `Message.payloadBytes` getter for a string payload: UTF-8 encode the
    string into a fresh buffer of its UTF-8 length.  (`payloadBytes` and
    `payloadString` read the real `payload` property and are the only
    `Message` accessors that work; see `messageAccessorCrash` for the
    others.) -/
def payloadBytesOfString (s : JSString) : Except MqttErr (List Nat) :=
  stringToUTF8 s (List.replicate (UTF8LengthGo s) 0) 0

/-- A call to one of `Message`'s self-referential accessors
    (Message.ts 71-121).  `destinationName`, `qos`, `retained`, `duplicate`,
    `topic` and `stringPayload` are declared as
    `get p() { return this.p }` / `set p(v) { ... this.p = v ... }`; class
    accessors live on the prototype and no own data property ever shadows
    them, so the read inside the getter re-invokes the getter and the
    assignment inside the setter re-invokes the setter.  `stack` bounds the
    JS call stack; exhausting it is the thrown stack-overflow `RangeError`.
    For EVERY stack bound the call ends in that error
    (`messageAccessorCrash_eq` below). -/
def messageAccessorCrash : Nat → Except MqttErr Unit
  | 0 => .error .RANGE_ERROR
  | stack + 1 => messageAccessorCrash stack

/-- `set destinationName(v)` from Message.ts: for a string argument (always
    the case at the modelled call sites) the `typeof` check passes and
    `this.destinationName = v` re-enters this very setter. -/
def messageSetDestinationName : Nat → JSString → Except MqttErr Unit
  | 0, _ => .error .RANGE_ERROR
  | stack + 1, v => messageSetDestinationName stack v

/-- `set qos(v)` from Message.ts: a value outside {0, 1, 2} throws the
    setter's own invalid-argument `Error`; a valid value makes
    `this.qos = v` re-enter this very setter. -/
def messageSetQos : Nat → Nat → Except MqttErr Unit
  | 0, _ => .error .RANGE_ERROR
  | stack + 1, v =>
    if v = 0 ∨ v = 1 ∨ v = 2 then messageSetQos stack v
    else .error .INVALID_ARGUMENT

/-- `send(topic, payload, qos)` with separate arguments
    (ClientImplementation.ts 398-404), from the point the application
    message is built: `new Message(payload)` only stores `payload`; the next
    statement, `message.destinationName = topic` (line 401), enters the
    self-recursive setter, so control never reaches `message.qos = qos`
    (line 402) — let alone the connected-state check, `_requires_ack`,
    `WireMessage` construction or `encode`, all omitted here as
    unreachable. -/
def sendTopicPayloadQos (stack : Nat) (topic : JSString) (qos : Nat) :
    Except MqttErr Unit := do
  let _ ← messageSetDestinationName stack topic -- message.destinationName = topic
  let _ ← messageSetQos stack qos               -- message.qos = qos (never reached)
  .ok ()

/-- `WireMessage` from `WireMessage.ts`.  Number-valued fields the source
    tests for truthiness (`messageIdentifier`) are `Nat` with `0` for
    absent/zero; optional object/string fields are `Option`; `topics` is
    `Option` because only its presence is tested (`requestedQos` is
    initialised to `[]` in the source and hence always truthy). -/
structure WireMessage where
  type : Nat
  messageIdentifier : Nat := 0
  sessionPresent : Bool := false
  returnCode : Option ReturnCode := none
  payloadMessage : Option MqttMessageM := none
  mqttVersion : Nat := 0
  clientId : Option JSString := none
  willMessage : Option MqttMessageM := none
  userName : Option JSString := none
  password : Option JSString := none
  topics : Option (List JSString) := none
  requestedQos : List Nat := []
  cleanSession : Bool := false
  keepAliveInterval : Nat := 0
  pubRecReceived : Bool := false
  sequence : Option Nat := none
  deriving DecidableEq, Repr

/-- Truthiness of an optional JS string (`undefined`, `null` and `""` are
    falsy). -/
def stringPresent : Option JSString → Bool
  | none => false
  | some s => !s.isEmpty

/-- The SUBSCRIBE payload loop of `WireMessage.encode`: for each topic, a
    length-prefixed UTF-8 string followed by one requested-QoS byte
    (`byteStream[pos++] = this.requestedQos[i]`, stored modulo 256 as by a
    `Uint8Array`). -/
def subscribePayloadWrite : List JSString → List Nat → List Nat → Nat →
    Except MqttErr (List Nat × Nat)
  | [], _, buffer, pos => .ok (buffer, pos)
  | t :: ts, qs, buffer, pos => do
    let (buffer, pos) ← writeString (some t) (UTF8LengthGo t) buffer pos
    let buffer := buffer.set pos (qs.headD 0 % 256)
    subscribePayloadWrite ts (qs.drop 1) buffer (pos + 1)

/-- The UNSUBSCRIBE payload loop of `WireMessage.encode`: the topic strings
    only. -/
def unsubscribePayloadWrite : List JSString → List Nat → Nat →
    Except MqttErr (List Nat × Nat)
  | [], buffer, pos => .ok (buffer, pos)
  | t :: ts, buffer, pos => do
    let (buffer, pos) ← writeString (some t) (UTF8LengthGo t) buffer pos
    unsubscribePayloadWrite ts buffer pos

/-- Remaining-length and fixed-header-flag computation of
    `WireMessage.encode` (the `switch (this.type)` before the buffer is
    allocated).  Returns `(first, remLength, destinationNameLength)`.
    The topic byte-lengths (`topicStrLength[i]`) are `UTF8LengthGo` of each
    topic, recomputed where the source re-reads the cached array.
    The CONNECT-with-will and PUBLISH-with-payload branches transcribe the
    source's INTENDED arithmetic; in the source their first `Message`
    property read (`willMessage.destinationName` at WireMessage.ts:106,
    `payloadMessage.duplicate` at WireMessage.ts:146) self-recurses and
    throws, so `WireMessage.encode`'s crash guard returns `RANGE_ERROR`
    before ever reaching them here. -/
def encodeHeaderInfo (w : WireMessage) : Nat × Nat × Nat :=
  let first0 := (w.type &&& 0x0f) <<< 4
  -- if the message contains a messageIdentifier then we need two bytes for that
  let remLength0 := if w.messageIdentifier ≠ 0 then 2 else 0
  if w.type = MESSAGE_TYPE_CONNECT then
    let protoLen :=
      if w.mqttVersion = 3 then MqttProtoIdentifierv3.length + 3
      else if w.mqttVersion = 4 then MqttProtoIdentifierv4.length + 3
      else 0
    let r := remLength0 + protoLen + UTF8Length w.clientId + 2
    let r := match w.willMessage with
      | some will => r + UTF8Length will.destinationName + 2 + will.payloadBytes.length + 2
      | none => r
    let r := if stringPresent w.userName then r + UTF8Length w.userName + 2 else r
    let r := if stringPresent w.password then r + UTF8Length w.password + 2 else r
    (first0, r, 0)
  else if w.type = MESSAGE_TYPE_SUBSCRIBE then
    match w.topics with
    | some topics =>
      (first0 ||| 0x02,
       remLength0 + (topics.map (fun t => UTF8LengthGo t + 2)).sum + w.requestedQos.length, 0)
    | none => (first0, remLength0, 0)
  else if w.type = MESSAGE_TYPE_UNSUBSCRIBE then
    match w.topics with
    | some topics =>
      (first0 ||| 0x02, remLength0 + (topics.map (fun t => UTF8LengthGo t + 2)).sum, 0)
    | none => (first0, remLength0, 0)
  else if w.type = MESSAGE_TYPE_PUBREL then
    (first0 ||| 0x02, remLength0, 0)
  else if w.type = MESSAGE_TYPE_PUBLISH then
    match w.payloadMessage with
    | some pm =>
      let f := first0
      let f := if pm.duplicate then f ||| 0x08 else f
      let f := f ||| (pm.qos <<< 1)
      let f := if pm.retained then f ||| 0x01 else f
      let dnl := UTF8Length pm.destinationName
      (f, remLength0 + dnl + 2 + pm.payloadBytes.length, dnl)
    | none => (first0, remLength0, 0)
  else (first0, remLength0, 0)

/-- `WireMessage.encode` from `WireMessage.ts`: fixed header byte, MBI
    remaining length, variable header and payload, written into a
    zero-initialised buffer of exactly `remLength + pos` bytes.
    A CONNECT carrying a will message or a PUBLISH carrying a payload
    message never encodes: the remaining-length switch's first read of a
    `Message` property (`willMessage.destinationName`, WireMessage.ts:106;
    `payloadMessage.duplicate`, WireMessage.ts:146) is a self-recursive
    accessor and throws a stack-overflow `RangeError`
    (`messageAccessorCrash`) — the guard below models that; the `Message`
    reads in the remainder of the body are thereby unreachable. -/
def WireMessage.encode (w : WireMessage) : Except MqttErr (List Nat) := do
  if w.type = MESSAGE_TYPE_CONNECT ∧ w.willMessage.isSome then
    throw .RANGE_ERROR
  if w.type = MESSAGE_TYPE_PUBLISH ∧ w.payloadMessage.isSome then
    throw .RANGE_ERROR
  let (first, remLength, destinationNameLength) := encodeHeaderInfo w
  let mbi := encodeMBI remLength
  let pos := mbi.length + 1
  let buffer := List.replicate (remLength + pos) 0
  let buffer := buffer.set 0 first
  let buffer := writeBytes buffer 1 mbi
  -- variable header
  let (buffer, pos) ←
    if w.type = MESSAGE_TYPE_PUBLISH then
      writeString (w.payloadMessage.bind (fun pm => pm.destinationName))
        destinationNameLength buffer pos
    else if w.type = MESSAGE_TYPE_CONNECT then do
      let (buffer, pos) :=
        if w.mqttVersion = 3 then
          (writeBytes buffer pos MqttProtoIdentifierv3, pos + MqttProtoIdentifierv3.length)
        else if w.mqttVersion = 4 then
          (writeBytes buffer pos MqttProtoIdentifierv4, pos + MqttProtoIdentifierv4.length)
        else (buffer, pos)
      let connectFlags := if w.cleanSession then 0x02 else 0
      let connectFlags := match w.willMessage with
        | some will =>
          let cf := connectFlags ||| 0x04
          let cf := cf ||| (will.qos <<< 3)
          if will.retained then cf ||| 0x20 else cf
        | none => connectFlags
      let connectFlags := if stringPresent w.userName then connectFlags ||| 0x80 else connectFlags
      let connectFlags := if stringPresent w.password then connectFlags ||| 0x40 else connectFlags
      let buffer := buffer.set pos connectFlags
      let pos := pos + 1
      let (buffer, pos) := writeUint16 w.keepAliveInterval buffer pos
      .ok (buffer, pos)
    else .ok (buffer, pos)
  -- output the messageIdentifier - if there is one
  let (buffer, pos) :=
    if w.messageIdentifier ≠ 0 then writeUint16 w.messageIdentifier buffer pos
    else (buffer, pos)
  -- payload switch
  if w.type = MESSAGE_TYPE_CONNECT then do
    let (buffer, pos) ← writeString w.clientId (UTF8Length w.clientId) buffer pos
    let (buffer, pos) ←
      match w.willMessage with
      | some will => do
        let (buffer, pos) ←
          writeString will.destinationName (UTF8Length will.destinationName) buffer pos
        let (buffer, pos) := writeUint16 will.payloadBytes.length buffer pos
        let buffer := writeBytes buffer pos will.payloadBytes
        .ok (buffer, pos + will.payloadBytes.length)
      | none => .ok (buffer, pos)
    let (buffer, pos) ←
      if stringPresent w.userName then writeString w.userName (UTF8Length w.userName) buffer pos
      else .ok (buffer, pos)
    let (buffer, _) ←
      if stringPresent w.password then writeString w.password (UTF8Length w.password) buffer pos
      else .ok (buffer, pos)
    .ok buffer
  else if w.type = MESSAGE_TYPE_PUBLISH then
    match w.payloadMessage with
    | some pm => .ok (writeBytes buffer pos pm.payloadBytes)
    | none => .ok buffer
  else if w.type = MESSAGE_TYPE_SUBSCRIBE then
    match w.topics with
    | some topics => do
      let (buffer, _) ← subscribePayloadWrite topics w.requestedQos buffer pos
      .ok buffer
    | none => .ok buffer
  else if w.type = MESSAGE_TYPE_UNSUBSCRIBE then
    match w.topics with
    | some topics => do
      let (buffer, _) ← unsubscribePayloadWrite topics buffer pos
      .ok buffer
    | none => .ok buffer
  else .ok buffer

/-- Append a decoded code point to the output string as `parseUTF8` does:
    a value above `0xffff` is expressed as a surrogate pair. -/
def utf16Append (output : JSString) (utf16 : Nat) : JSString :=
  if utf16 > 0xffff then
    let v := utf16 - 0x10000
    output ++ [0xd800 + (v >>> 10), 0xdc00 + (v &&& 0x3ff)]
  else output ++ [utf16]

/-- Loop of `parseUTF8` from `utils`, running while `pos < stop`
    (`stop = offset + length`).  A continuation byte below `0x80` makes
    `byteN - 128` negative and throws `MALFORMED_UTF`, as does a leading
    byte of `0xf8` or above.  Reads past the end of the buffer are modelled
    as `0` (in JS they are `undefined` and poison the arithmetic with `NaN`);
    no theorem below touches that case. -/
def parseUTF8Go (input : List Nat) (stop : Nat) (pos : Nat) (output : JSString) :
    Except MqttErr JSString :=
  if h : pos < stop then
    let byte1 := input.getD pos 0
    if byte1 < 128 then
      parseUTF8Go input stop (pos + 1) (utf16Append output byte1)
    else
      let byte2 := input.getD (pos + 1) 0
      if byte2 < 128 then .error .MALFORMED_UTF
      else if byte1 < 0xe0 then
        -- 2 byte character
        parseUTF8Go input stop (pos + 2) (utf16Append output (64 * (byte1 - 0xc0) + (byte2 - 128)))
      else
        let byte3 := input.getD (pos + 2) 0
        if byte3 < 128 then .error .MALFORMED_UTF
        else if byte1 < 0xf0 then
          -- 3 byte character
          parseUTF8Go input stop (pos + 3)
            (utf16Append output (4096 * (byte1 - 0xe0) + 64 * (byte2 - 128) + (byte3 - 128)))
        else
          let byte4 := input.getD (pos + 3) 0
          if byte4 < 128 then .error .MALFORMED_UTF
          else if byte1 < 0xf8 then
            -- 4 byte character
            parseUTF8Go input stop (pos + 4)
              (utf16Append output
                (262144 * (byte1 - 0xf0) + 4096 * (byte2 - 128) + 64 * (byte3 - 128) + (byte4 - 128)))
          else .error .MALFORMED_UTF -- longer encodings are not supported
  else .ok output
termination_by stop - pos
decreasing_by all_goals omega

/-- `parseUTF8` from `utils`. -/
def parseUTF8 (input : List Nat) (offset length : Nat) : Except MqttErr JSString :=
  parseUTF8Go input (offset + length) offset []

/-- Result of `decodeMessage`: the partial-frame signal `[null, startingPos]`,
    a decoded `[wireMessage, endPos]`, or a thrown decode error. -/
inductive DecodeResult where
  | needMore (startingPos : Nat)
  | packet (msg : WireMessage) (endPos : Nat)
  | fail (e : MqttErr)
  deriving DecidableEq, Repr

/-- `decodeMessage` from `utils`: fixed header byte, the remaining-length
    MBI loop (`decodeMBIGo` over `input.drop pos`, which is empty exactly
    when `pos === input.length`), the buffer-sufficiency check, and the
    per-type `switch`.  Reads past the end of the buffer are modelled as `0`. -/
def decodeMessage (input : List Nat) (pos : Nat) : DecodeResult :=
  let startingPos := pos
  let first := input.getD pos 0
  let type := first >>> 4
  let messageInfo := first &&& 0x0f
  let pos := pos + 1
  match decodeMBIGo (input.drop pos) pos 1 0 with
  | none => .needMore startingPos
  | some (remLength, pos) =>
    let endPos := pos + remLength
    if input.length < endPos then .needMore startingPos
    else if type = MESSAGE_TYPE_CONNACK then
      let connectAcknowledgeFlags := input.getD pos 0
      .packet { type := type,
                sessionPresent := connectAcknowledgeFlags &&& 0x01 ≠ 0,
                returnCode := some (.code (input.getD (pos + 1) 0)) } endPos
    else if type = MESSAGE_TYPE_PUBLISH then
      let qos := (messageInfo >>> 1) &&& 0x03
      let len := readUint16 input pos
      let pos := pos + 2
      match parseUTF8 input pos len with
      | .error e => .fail e
      | .ok _topicName =>
        -- The messageIdentifier read (for qos > 0) and
        -- `new Message(input.subarray(pos, endPos))` succeed — `Message`
        -- stores only its payload — but the property stores that follow go
        -- through Message's self-recursive setters (`messageAccessorCrash`)
        -- and never return, so no PUBLISH packet is ever produced:
        if messageInfo &&& 0x01 = 0x01 then .fail .RANGE_ERROR      -- message.retained = true
        else if messageInfo &&& 0x08 = 0x08 then .fail .RANGE_ERROR -- message.duplicate = true
        else if qos = 0 ∨ qos = 1 ∨ qos = 2 then .fail .RANGE_ERROR -- message.qos = qos
        else .fail .INVALID_ARGUMENT -- qos = 3: the qos setter's own throw
    else if type = MESSAGE_TYPE_PUBACK ∨ type = MESSAGE_TYPE_PUBREC ∨
            type = MESSAGE_TYPE_PUBREL ∨ type = MESSAGE_TYPE_PUBCOMP ∨
            type = MESSAGE_TYPE_UNSUBACK then
      .packet { type := type, messageIdentifier := readUint16 input pos } endPos
    else if type = MESSAGE_TYPE_SUBACK then
      .packet { type := type, messageIdentifier := readUint16 input pos,
                returnCode := some (.codes ((input.take endPos).drop (pos + 2))) } endPos
    else .packet { type := type } endPos

/-! ## Identifier allocator (`_requires_ack`, ClientImplementation.ts 662-677) -/

/-- `maxMessageIdentifier` field of `ClientImplementation`. -/
def maxMessageIdentifier : Nat := 65536

/-- The allocator's view of the client: the key set of `_sentMessages` (the
    Outbox) and the cursor `_message_identifier`. -/
structure AllocState where
  sentKeys : Finset Nat
  cursor : Nat
  deriving DecidableEq

/-- The `while (this._sentMessages[this._message_identifier] !== undefined)
    this._message_identifier++` scan: first key not in the Outbox at or above
    the cursor. -/
def scanFree (s : Finset Nat) (cursor : Nat) : Nat :=
  if h : cursor ∈ s then scanFree s (cursor + 1) else cursor
termination_by s.sup id + 1 - cursor
decreasing_by
  have hle : cursor ≤ s.sup id := Finset.le_sup (f := id) h
  omega

/-- `_requires_ack`: throws (`none`) when the Outbox holds more than
    `maxMessageIdentifier` entries; otherwise scans the cursor forward over
    occupied slots, assigns it, inserts the message, and wraps the cursor to
    `1` only when it is exactly `maxMessageIdentifier` after assignment. -/
def requiresAck (st : AllocState) : Option (Nat × AllocState) :=
  if st.sentKeys.card > maxMessageIdentifier then none -- throw 'Too many messages'
  else
    let mid := scanFree st.sentKeys st.cursor
    let cursor := if mid = maxMessageIdentifier then 1 else mid
    some (mid, ⟨insert mid st.sentKeys, cursor⟩)

/-- Allocator states reachable from a fresh client (`_sentMessages = {}`,
    `_message_identifier = 1`) by allocations (`_requires_ack`), releases
    (PUBACK / PUBCOMP / SUBACK / UNSUBACK deleting an entry) and the
    clean-session CONNACK wipe. -/
inductive Reachable : AllocState → Prop
  | init : Reachable ⟨∅, 1⟩
  | alloc {st : AllocState} {mid : Nat} {st' : AllocState} :
      Reachable st → requiresAck st = some (mid, st') → Reachable st'
  | release {st : AllocState} (mid : Nat) :
      Reachable st → Reachable ⟨st.sentKeys.erase mid, st.cursor⟩
  | clear {st : AllocState} : Reachable st → Reachable ⟨∅, st.cursor⟩

/-- The allocator state after `n` consecutive allocations from a fresh
    client (e.g. `n` QoS≥1 publishes with no acknowledgement yet). -/
def allocStateAfter : Nat → Option AllocState
  | 0 => some ⟨∅, 1⟩
  | n + 1 => (allocStateAfter n).bind fun st => (requiresAck st).map Prod.snd

/-- The messageIdentifier assigned by the `n`-th allocation (`n ≥ 1`) in that
    run. -/
def allocMidAt (n : Nat) : Option Nat :=
  (allocStateAfter (n - 1)).bind fun st => (requiresAck st).map Prod.fst

/-! ## CONNACK replay (`_handleMessage`, ClientImplementation.ts 775-807) -/

/-- The sort comparator `(a, b) => a.sequence - b.sequence`: strictly less
    only when both sequences are numbers (an `undefined` operand makes the
    comparator `NaN`, which `Array.prototype.sort` treats as `0`). -/
def seqLT (a b : WireMessage) : Bool :=
  match a.sequence, b.sequence with
  | some x, some y => decide (x < y)
  | _, _ => false

/-- Stable insertion used to model `Array.prototype.sort` (required stable
    since ES2019): each element is placed before the first element strictly
    greater under the comparator, so later elements stay after equal ones. -/
def insertBySeq (x : WireMessage) : List WireMessage → List WireMessage
  | [] => [x]
  | y :: ys => if seqLT x y then x :: y :: ys else y :: insertBySeq x ys

/-- Stable sort by `sequence` modelling
    `sequencedMessages.sort((a, b) => a.sequence - b.sequence)`. -/
def sortBySeq (l : List WireMessage) : List WireMessage :=
  l.foldl (fun acc x => insertBySeq x acc) []

/-- `new WireMessage(MESSAGE_TYPE.PUBREL, {messageIdentifier: mid})`. -/
def mkPubRel (mid : Nat) : WireMessage :=
  { type := MESSAGE_TYPE_PUBREL, messageIdentifier := mid }

/-- The per-entry replay rule of the CONNACK handler: a PUBLISH whose
    `pubRecReceived` is set is re-enqueued as a fresh PUBREL carrying its
    messageIdentifier; every other entry is re-enqueued unchanged. -/
def replaySubst (m : WireMessage) : WireMessage :=
  if m.type = MESSAGE_TYPE_PUBLISH ∧ m.pubRecReceived then mkPubRel m.messageIdentifier else m

/-- The sorted replay list built on a successful CONNACK: all `_sentMessages`
    values (`sent`, in enumeration order) followed by the drained
    disconnected-publish buffer.  `_buffered_msg_queue` is front-inserted and
    drained with `pop()` from the back, hence `buffered.reverse` (oldest
    first, `buffered` listed newest first). -/
def connackReplayOrder (sent buffered : List WireMessage) : List WireMessage :=
  sortBySeq (sent ++ buffered.reverse)

/-- The messages scheduled by the CONNACK handler's replay loop, in order. -/
def connackReplay (sent buffered : List WireMessage) : List WireMessage :=
  (connackReplayOrder sent buffered).map replaySubst

/-! ## Reconnect backoff (`_disconnected` 1040-1043 / 1089-1093, `_reconnect`
    1013-1028) -/

/-- The part of the client state `_disconnected` branches on. -/
structure ConnLifecycleState where
  uris : Option (List JSString)
  hostIndex : Option Nat
  connected : Bool
  reconnecting : Bool
  reconnectInterval : Nat
  mqttVersion : Nat
  mqttVersionExplicit : Bool
  reconnectOpt : Bool
  deriving DecidableEq, Repr

/-- What `_disconnected(errorCode, errorText)` does after tearing down the
    socket. -/
inductive DisconnAction where
  | scheduleReconnect (delay : Nat)
  | tryNextHost (newIndex : Nat)
  | lostThenReconnect
  | lostOnly
  | versionFallback
  | notifyOnFailure
  deriving DecidableEq, Repr

/-- `ERROR.OK.code`. -/
def errOK : Nat := 0

/-- Truthiness of `this.hostIndex`: `undefined` and `0` are both falsy in
    `if (this.connectOptions.uris && this.hostIndex && ...)`. -/
def hostIndexTruthy : Option Nat → Bool
  | none => false
  | some i => i ≠ 0

/-- The control decision of `_disconnected`, following the source branch for
    branch.  `errorCode = none` models calling `_disconnected()` with no
    arguments.  (`uris.length - 1` is `Nat` subtraction; the URI list built
    by `_formatConnectOptions` is never empty.) -/
def disconnectedAction (st : ConnLifecycleState) (errorCode : Option Nat) : DisconnAction :=
  if errorCode.isSome ∧ st.reconnecting then
    -- continue automatic reconnect process
    .scheduleReconnect st.reconnectInterval
  else if st.uris.isSome ∧ hostIndexTruthy st.hostIndex ∧
          st.hostIndex.getD 0 < (st.uris.getD []).length - 1 then
    -- try the next host
    .tryNextHost (st.hostIndex.getD 0 + 1)
  else
    let ec := errorCode.getD errOK -- if errorCode === undefined, errorCode = ERROR.OK
    if st.connected then
      if ec ≠ errOK ∧ st.reconnectOpt then .lostThenReconnect else .lostOnly
    else if st.mqttVersion = 4 ∧ st.mqttVersionExplicit = false then .versionFallback
    else .notifyOnFailure

/-! ## Persistence (`store` 523-560 / `restore` 562-607) -/

/-- `payloadMessage` sub-record of a persisted message. -/
structure StoredPayload where
  payloadHex : JSString := []
  qos : Nat := 0
  destinationName : Option JSString := none
  duplicate : Bool := false
  retained : Bool := false
  deriving DecidableEq, Repr

/-- A persisted record, JSON-parsed: `{type, messageIdentifier, version,
    pubRecReceived?, sequence?, payloadMessage}`. -/
structure StoredMessage where
  type : Nat
  messageIdentifier : Nat := 0
  version : Nat := 1
  pubRecReceived : Bool := false
  sequence : Option Nat := none
  payloadMessage : StoredPayload := {}
  deriving DecidableEq, Repr

/-- One lowercase hex digit, as produced by `Number.prototype.toString(16)`. -/
def hexCharOfDigit (d : Nat) : Nat := if d < 10 then 48 + d else 87 + d

/-- One payload byte as written by `store`: zero-padded to two lowercase hex
    characters. -/
def byteToHex (b : Nat) : JSString :=
  if b ≤ 0xf then [48, hexCharOfDigit b]
  else [hexCharOfDigit (b / 16), hexCharOfDigit (b % 16)]

/-- The hex-string accumulation loop of `store`. -/
def bytesToHex : List Nat → JSString
  | [] => []
  | b :: rest => byteToHex b ++ bytesToHex rest

/-- `store(prefix, wireMessage)` (ClientImplementation.ts 523-560): only a
    PUBLISH may be persisted — any other type throws `INVALID_STORED_DATA` —
    and even a PUBLISH never completes.  The payload-to-hex loop succeeds
    (the `payloadBytes` getter reads the real `payload` property), but the
    very next line reads `wireMessage.payloadMessage.qos` through Message's
    self-recursive getter (line 541), which never returns
    (`messageAccessorCrash`): the sequence assignment and the
    `storage.setItem` below it are unreachable, so nothing is ever written.
    A PUBLISH with no `payloadMessage` instead hits `messageBytes.length`
    on `undefined` (a `TypeError`). -/
def store (_prefixSent : Bool) (w : WireMessage) (_seqCounter : Nat) :
    Except MqttErr StoredMessage :=
  if w.type = MESSAGE_TYPE_PUBLISH then
    match w.payloadMessage with
    | none => .error .TYPE_ERROR -- messageBytes.length with messageBytes undefined
    | some pm =>
      let _payloadHex := bytesToHex pm.payloadBytes -- the hex loop, lines 532-538
      .error .RANGE_ERROR -- reading wireMessage.payloadMessage.qos, line 541
  else .error .INVALID_STORED_DATA

/-- One hex digit's value, or `none` for a non-hex character. -/
def hexDigitVal (c : Nat) : Option Nat :=
  if 48 ≤ c ∧ c ≤ 57 then some (c - 48)        -- '0'..'9'
  else if 97 ≤ c ∧ c ≤ 102 then some (c - 87)  -- 'a'..'f'
  else if 65 ≤ c ∧ c ≤ 70 then some (c - 55)   -- 'A'..'F'
  else none

/-- `parseInt(hex.substring(0, 2), 16)` followed by the `Uint8Array` store:
    `parseInt` reads the longest hex prefix of the two characters, and a
    completely non-numeric pair gives `NaN`, which a `Uint8Array` stores as
    `0`. -/
def parseHexPair (c1 c2 : Nat) : Nat :=
  match hexDigitVal c1, hexDigitVal c2 with
  | some d1, some d2 => 16 * d1 + d2
  | some d1, none => d1
  | none, _ => 0

/-- The `while (hex.length >= 2)` reconstruction loop of `restore`; a
    trailing odd character is dropped. -/
def hexToBytes : JSString → List Nat
  | c1 :: c2 :: rest => parseHexPair c1 c2 :: hexToBytes rest
  | _ => []

/-- The insert `restore` is MEANT to perform at its end
    (`this._sentMessages[mid] = wireMessage` etc.).  The crash in Message's
    `qos` setter means `restore` never actually produces one — see
    `restore`. -/
inductive RestoreOutcome where
  | sentEntry (mid : Nat) (w : WireMessage)      -- this._sentMessages[mid] = w
  | receivedEntry (mid : Nat) (w : WireMessage)  -- this._receivedMessages[mid] = w
  | noEntry (w : WireMessage)                    -- falsy messageIdentifier: no insert
  deriving DecidableEq, Repr

/-- Which table the storage key addresses (`Sent:<localKey>` or
    `Received:<localKey>`; `restore` is only invoked for these prefixes). -/
inductive StoredKeyKind where
  | sentKey
  | receivedKey
  deriving DecidableEq, Repr

/-- `restore(key)` after the JSON parse (ClientImplementation.ts 562-607).
    `new WireMessage(storedMessage.type, storedMessage)` copies the stored
    scalar fields onto the (plain-property) `WireMessage` and succeeds.
    The `switch (storedMessage.type)` then throws `INVALID_STORED_DATA` for
    every non-PUBLISH record; for a PUBLISH record the payload hex is
    re-parsed and `new Message(byteStream)` succeeds, but the first property
    copy — `payloadMessage.qos = storedMessage.payloadMessage.qos`,
    line 585 — enters Message's self-recursive `qos` setter and never
    returns (`messageAccessorCrash`): a stack-overflow `RangeError` for a
    stored qos of 0, 1 or 2, the setter's own invalid-argument `Error`
    otherwise.  The `destinationName`/`duplicate`/`retained` copies and the
    Outbox/Inbox inserts below it are unreachable, so `restore` never
    stores anything — whatever the record's `version`, which is never read
    at all. -/
def restore (_kind : StoredKeyKind) (sm : StoredMessage) : Except MqttErr RestoreOutcome :=
  -- new WireMessage(storedMessage.type, storedMessage): plain copies, succeeds
  let _w : WireMessage := {
    type := sm.type
    messageIdentifier := sm.messageIdentifier
    pubRecReceived := sm.pubRecReceived
    sequence := sm.sequence }
  if sm.type = MESSAGE_TYPE_PUBLISH then
    let _payloadBytes := hexToBytes sm.payloadMessage.payloadHex -- lines 574-582
    -- payloadMessage.qos = storedMessage.payloadMessage.qos (line 585):
    if sm.payloadMessage.qos = 0 ∨ sm.payloadMessage.qos = 1 ∨ sm.payloadMessage.qos = 2 then
      .error .RANGE_ERROR
    else .error .INVALID_ARGUMENT
  else .error .INVALID_STORED_DATA

/-! ## Concrete fixtures used by the theorems -/

/-- "Not strictly later by sequence": how two adjacent elements of a list
    sorted by the comparator `(a, b) => a.sequence - b.sequence` relate. -/
def seqNondec (a b : WireMessage) : Prop := seqLT b a = false

/-- An in-flight SUBSCRIBE (its SUBACK still pending when the connection
    dropped); `_sentMessages` keeps it across `_disconnected`. -/
def subInFlight : WireMessage :=
  { type := MESSAGE_TYPE_SUBSCRIBE, messageIdentifier := 5,
    topics := some [[0x61]], requestedQos := [1] }

/-- The topic `"a/b"` as UTF-16 units. -/
def topicAB : JSString := [0x61, 0x2f, 0x62]

/-- A frame whose remaining-length field uses five MBI bytes (four
    consecutive continuation bytes `0x80`): `20 80 80 80 80 00 01 00`. -/
def fiveByteMBIFrame : List Nat := [0x20, 0x80, 0x80, 0x80, 0x80, 0x00, 0x01, 0x00]

/-- The same shape but with a huge declared length:
    `20 80 80 80 80 02` declares `2 * 128^4` remaining bytes. -/
def fiveByteMBIHugeFrame : List Nat := [0x20, 0x80, 0x80, 0x80, 0x80, 0x02]

/-- `"\uD800a"`: a high surrogate followed by a unit that is not a low
    surrogate. -/
def strandedHighSurrogate : JSString := [0xd800, 0x61]

/-- The client state while the first connect attempt to `uris[0]` is in
    flight: two URIs configured, `hostIndex = 0` (set by `connect`),
    not yet connected, not reconnecting, default version 4 not explicitly
    chosen. -/
def failoverFirstUriState : ConnLifecycleState :=
  { uris := some [[0x61], [0x62]], hostIndex := some 0, connected := false,
    reconnecting := false, reconnectInterval := 1, mqttVersion := 4,
    mqttVersionExplicit := false, reconnectOpt := false }

/-- The analogous state while trying `uris[1]` of three URIs. -/
def failoverSecondUriState : ConnLifecycleState :=
  { uris := some [[0x61], [0x62], [0x63]], hostIndex := some 1, connected := false,
    reconnecting := false, reconnectInterval := 1, mqttVersion := 4,
    mqttVersionExplicit := false, reconnectOpt := false }

/-- A persisted PUBLISH record whose `version` field is `2` (payload hex
    `"68"`, i.e. the single byte `0x68`). -/
def publishRecordV2 : StoredMessage :=
  { type := MESSAGE_TYPE_PUBLISH, messageIdentifier := 7, version := 2,
    payloadMessage := { payloadHex := [0x36, 0x38], qos := 1 } }

/-! ## Theorems: sorting infrastructure for the CONNACK replay -/

theorem seqLT_asymm {x y : WireMessage} (h : seqLT x y = true) : seqLT y x = false := by
  unfold seqLT at h ⊢
  cases hx : x.sequence <;> cases hy : y.sequence <;> simp [hx, hy] at h ⊢ <;> omega

theorem seqLT_neg_trans {x y z : WireMessage} (h : seqLT x y = true)
    (h' : seqLT z y = false) : seqLT z x = false := by
  unfold seqLT at h h' ⊢
  cases hx : x.sequence <;> cases hy : y.sequence <;> cases hz : z.sequence <;>
    simp [hx, hy, hz] at h h' ⊢ <;> omega

theorem insertBySeq_perm (x : WireMessage) (l : List WireMessage) :
    (insertBySeq x l).Perm (x :: l) := by
  induction l with
  | nil => simp [insertBySeq]
  | cons y ys ih =>
    by_cases h : seqLT x y
    · simp [insertBySeq, h]
    · simp only [insertBySeq, h, Bool.false_eq_true, if_false]
      exact (ih.cons y).trans (List.Perm.swap x y ys)

theorem sortBySeq_perm (l : List WireMessage) : (sortBySeq l).Perm l := by
  suffices h : ∀ acc : List WireMessage,
      (l.foldl (fun acc x => insertBySeq x acc) acc).Perm (acc ++ l) by
    simpa [sortBySeq] using h []
  induction l with
  | nil => intro acc; simp
  | cons x xs ih =>
    intro acc
    have h1 : (List.foldl (fun acc x => insertBySeq x acc) (insertBySeq x acc) xs).Perm
        (insertBySeq x acc ++ xs) := ih (insertBySeq x acc)
    have h2 : (insertBySeq x acc ++ xs).Perm ((x :: acc) ++ xs) :=
      (insertBySeq_perm x acc).append_right xs
    have h3 : ((x :: acc) ++ xs).Perm (acc ++ x :: xs) := List.perm_middle.symm
    simpa [List.foldl] using (h1.trans h2).trans h3

theorem pairwise_insertBySeq (x : WireMessage) (l : List WireMessage)
    (hl : l.Pairwise seqNondec) : (insertBySeq x l).Pairwise seqNondec := by
  induction l with
  | nil => simp [insertBySeq, seqNondec]
  | cons y ys ih =>
    rcases List.pairwise_cons.mp hl with ⟨hy, hys⟩
    by_cases h : seqLT x y
    · simp only [insertBySeq, h, if_true]
      refine List.pairwise_cons.mpr ⟨?_, hl⟩
      intro z hz
      rcases List.mem_cons.mp hz with rfl | hz
      · exact seqLT_asymm h
      · exact seqLT_neg_trans h (hy z hz)
    · simp only [insertBySeq, h, Bool.false_eq_true, if_false]
      refine List.pairwise_cons.mpr ⟨?_, ih hys⟩
      intro z hz
      have hz' : z = x ∨ z ∈ ys := by
        simpa using (insertBySeq_perm x ys).mem_iff.mp hz
      rcases hz' with rfl | hz'
      · simpa [seqNondec] using h
      · exact hy z hz'

theorem sortBySeq_pairwise (l : List WireMessage) :
    (sortBySeq l).Pairwise seqNondec := by
  suffices h : ∀ acc : List WireMessage, acc.Pairwise seqNondec →
      (l.foldl (fun acc x => insertBySeq x acc) acc).Pairwise seqNondec by
    exact h [] (by simp)
  induction l with
  | nil => intro acc hacc; simpa using hacc
  | cons x xs ih =>
    intro acc hacc
    exact ih (insertBySeq x acc) (pairwise_insertBySeq x acc hacc)

/-- C1 (amended): on a successful CONNACK the replay list is built from ALL
    Outbox entries (whatever their packet type) plus the buffered QoS-0
    messages; that collection is stably sorted by `sequence` ascending, and
    each entry that is a PUBLISH with `pubRecReceived = true` is re-enqueued
    as a fresh PUBREL carrying its `messageIdentifier` while every other
    entry is re-enqueued unchanged. -/
theorem connack_replay_characterisation (sent buffered : List WireMessage) :
    (connackReplayOrder sent buffered).Perm (sent ++ buffered)
    ∧ (connackReplayOrder sent buffered).Pairwise seqNondec
    ∧ connackReplay sent buffered = (connackReplayOrder sent buffered).map replaySubst
    ∧ (∀ m : WireMessage, m.type = MESSAGE_TYPE_PUBLISH → m.pubRecReceived = true →
        replaySubst m = mkPubRel m.messageIdentifier)
    ∧ (∀ m : WireMessage, ¬(m.type = MESSAGE_TYPE_PUBLISH ∧ m.pubRecReceived = true) →
        replaySubst m = m) := by
  refine ⟨?_, sortBySeq_pairwise _, rfl, ?_, ?_⟩
  · exact (sortBySeq_perm (sent ++ buffered.reverse)).trans
      ((buffered.reverse_perm).append_left sent)
  · intro m h1 h2; simp [replaySubst, h1, h2]
  · intro m h
    unfold replaySubst
    rw [if_neg h]

/-- C1 counterexample: a client whose Outbox holds an in-flight SUBSCRIBE
    (reachable: subscribe, lose the connection before SUBACK, reconnect with
    `cleanSession = false`) replays that SUBSCRIBE too — the replay list is
    not restricted to the Outbox PUBLISH entries, which here would give an
    empty list. -/
theorem connack_replay_counterexample :
    connackReplay [subInFlight] [] = [subInFlight]
    ∧ subInFlight.type ≠ MESSAGE_TYPE_PUBLISH := by
  constructor
  · decide
  · decide

/-! ## Theorems: the identifier allocator -/

theorem scanFree_spec (s : Finset Nat) (cursor : Nat) :
    scanFree s cursor ∉ s ∧ cursor ≤ scanFree s cursor := by
  induction cursor using scanFree.induct s with
  | case1 cursor h ih =>
    rw [scanFree, dif_pos h]
    exact ⟨ih.1, by omega⟩
  | case2 cursor h =>
    rw [scanFree, dif_neg h]
    exact ⟨h, le_refl _⟩

theorem scanFree_empty (c : Nat) : scanFree ∅ c = c := by
  rw [scanFree]
  simp

theorem requiresAck_some {st : AllocState} {mid : Nat} {st' : AllocState}
    (h : requiresAck st = some (mid, st')) :
    mid = scanFree st.sentKeys st.cursor ∧
    st' = ⟨insert mid st.sentKeys, if mid = maxMessageIdentifier then 1 else mid⟩ := by
  unfold requiresAck at h
  split at h
  · exact absurd h (by simp)
  · simp only [Option.some.injEq, Prod.mk.injEq] at h
    obtain ⟨h1, h2⟩ := h
    subst h1
    exact ⟨rfl, h2.symm⟩

theorem reachable_cursor_pos {st : AllocState} (h : Reachable st) : 1 ≤ st.cursor := by
  induction h with
  | init => exact le_refl 1
  | @alloc st0 mid0 st0' hr heq ih =>
    obtain ⟨hmid, hst⟩ := requiresAck_some heq
    subst hst
    have hspec := (scanFree_spec st0.sentKeys st0.cursor).2
    dsimp only
    split
    · exact le_refl 1
    · omega
  | release mid hr ih => exact ih
  | clear hr ih => exact ih

/-- C2 (amended): for every `_requires_ack` call from a reachable client
    state, the assigned messageIdentifier is not already a key of the Outbox
    and is at least 1.  The claimed upper bound 65535 fails — see the
    counterexample theorem. -/
theorem allocator_fresh_and_positive {st : AllocState} {mid : Nat} {st' : AllocState}
    (hreach : Reachable st) (h : requiresAck st = some (mid, st')) :
    mid ∉ st.sentKeys ∧ 1 ≤ mid := by
  obtain ⟨hmid, -⟩ := requiresAck_some h
  subst hmid
  have hspec := scanFree_spec st.sentKeys st.cursor
  exact ⟨hspec.1, le_trans (reachable_cursor_pos hreach) hspec.2⟩

theorem requiresAck_fresh_eval :
    requiresAck ⟨∅, 1⟩ = some (1, ⟨{1}, 1⟩) := by
  rw [requiresAck]
  rw [scanFree_empty]
  norm_num [maxMessageIdentifier]

theorem allocator_fresh_and_positive_witness :
    Reachable (⟨∅, 1⟩ : AllocState)
    ∧ requiresAck ⟨∅, 1⟩ = some (1, ⟨{1}, 1⟩)
    ∧ (1 ∉ (⟨∅, 1⟩ : AllocState).sentKeys ∧ 1 ≤ 1) :=
  ⟨Reachable.init, requiresAck_fresh_eval,
   allocator_fresh_and_positive Reachable.init requiresAck_fresh_eval⟩

theorem scanFree_Icc (n : Nat) (h : 1 ≤ n) : scanFree (Finset.Icc 1 n) n = n + 1 := by
  rw [scanFree, dif_pos (by simp [Finset.mem_Icc]; omega)]
  rw [scanFree, dif_neg (by simp [Finset.mem_Icc])]

theorem allocStateAfter_eq (n : Nat) (hn : n ≤ 65535) :
    allocStateAfter n = some ⟨Finset.Icc 1 n, max 1 n⟩ := by
  induction n with
  | zero =>
    rw [allocStateAfter]
    decide
  | succ n ih =>
    rw [allocStateAfter, ih (by omega)]
    have hcard : (Finset.Icc 1 n).card = n := by
      rw [Nat.card_Icc]
      omega
    have hscan : scanFree (Finset.Icc 1 n) (max 1 n) = n + 1 := by
      rcases Nat.eq_zero_or_pos n with rfl | hpos
      · rw [show (Finset.Icc 1 0 : Finset Nat) = ∅ by decide]
        rw [max_eq_left (by omega), scanFree_empty]
      · rw [max_eq_right hpos, scanFree_Icc n hpos]
    have hins : insert (n + 1) (Finset.Icc 1 n) = Finset.Icc 1 (n + 1) :=
      Nat.Icc_insert_succ_right (by omega)
    simp only [Option.some_bind, requiresAck]
    rw [hcard, hscan, if_neg (by simp [maxMessageIdentifier]; omega)]
    rw [if_neg (by simp [maxMessageIdentifier]; omega)]
    rw [hins]
    simp only [Option.map_some', Option.some.injEq]
    congr 1
    omega

theorem allocStateAfter_reachable (n : Nat) :
    ∀ {st : AllocState}, allocStateAfter n = some st → Reachable st := by
  induction n with
  | zero =>
    intro st h
    rw [allocStateAfter] at h
    cases h
    exact Reachable.init
  | succ n ih =>
    intro st h
    rw [allocStateAfter] at h
    cases h1 : allocStateAfter n with
    | none => rw [h1] at h; simp at h
    | some st1 =>
      rw [h1] at h
      simp only [Option.some_bind] at h
      cases h2 : requiresAck st1 with
      | none => rw [h2] at h; simp at h
      | some p =>
        obtain ⟨mid, st'⟩ := p
        rw [h2] at h
        simp only [Option.map_some', Option.some.injEq] at h
        exact Reachable.alloc (ih h1) (by rw [h2, h])

theorem requiresAck_at_full :
    requiresAck ⟨Finset.Icc 1 65535, max 1 65535⟩ =
      some (65536, ⟨insert 65536 (Finset.Icc 1 65535), 1⟩) := by
  have hcard : (Finset.Icc 1 65535).card = 65535 := by
    rw [Nat.card_Icc]
  have hscan : scanFree (Finset.Icc 1 65535) (max 1 65535) = 65536 := by
    rw [max_eq_right (by norm_num)]
    exact scanFree_Icc 65535 (by norm_num)
  simp only [requiresAck]
  rw [hcard, hscan, if_neg (by simp [maxMessageIdentifier])]
  rw [if_pos (by simp [maxMessageIdentifier])]

theorem allocStateAfter_65535 :
    allocStateAfter 65535 = some ⟨Finset.Icc 1 65535, max 1 65535⟩ :=
  allocStateAfter_eq 65535 (le_refl _)

theorem allocMidAt_65536 : allocMidAt 65536 = some 65536 := by
  rw [allocMidAt, show (65536 - 1 : Nat) = 65535 from rfl, allocStateAfter_65535]
  rw [Option.some_bind, requiresAck_at_full, Option.map_some']

/-- C2 counterexample: the state reached by 65535 allocations with no
    release (e.g. 65535 QoS-1 publishes whose PUBACKs are outstanding) is
    reachable, and the 65536-th allocation from it assigns messageIdentifier
    65536 — outside the claimed range [1, 65535]. -/
theorem allocator_range_counterexample :
    Reachable ⟨Finset.Icc 1 65535, max 1 65535⟩
    ∧ allocMidAt 65536 = some 65536
    ∧ ¬(65536 ≤ 65535) :=
  ⟨allocStateAfter_reachable 65535 allocStateAfter_65535,
   allocMidAt_65536, by omega⟩

/-! ## Theorems: MBI round-trip -/

theorem mbiDigitFacts : ∀ d : Fin 128,
    (d : Nat) &&& 0x7f = d ∧ (d : Nat) &&& 0x80 = 0 ∧
    ((d : Nat) ||| 0x80) &&& 0x7f = d ∧ ((d : Nat) ||| 0x80) &&& 0x80 = 128 := by
  decide

theorem decodeMBIGo_encodeMBIGo (remBytes : Nat) :
    ∀ (number pos multiplier acc : Nat), 1 ≤ remBytes → number < 128 ^ remBytes →
    decodeMBIGo (encodeMBIGo number remBytes) pos multiplier acc =
      some (acc + number * multiplier, pos + (encodeMBIGo number remBytes).length) := by
  induction remBytes with
  | zero =>
    intro _ _ _ _ h _
    omega
  | succ r ih =>
    intro number pos multiplier acc _ hlt
    have hdig := mbiDigitFacts ⟨number % 128, Nat.mod_lt _ (by norm_num)⟩
    simp only [Fin.val_mk] at hdig
    have h7 : number >>> 7 = number / 128 := by
      rw [Nat.shiftRight_eq_div_pow]
    by_cases hpos : number / 128 > 0
    · have hr : 0 < r := by
        by_contra hr0
        have hr0' : r = 0 := by omega
        subst hr0'
        have : number < 128 := by simpa using hlt
        omega
      have henc : encodeMBIGo number (r + 1) =
          (number % 128 ||| 0x80) :: encodeMBIGo (number / 128) r := by
        rw [encodeMBIGo]
        simp only [h7]
        rw [if_pos hpos, if_pos hr]
      rw [henc]
      rw [decodeMBIGo]
      simp only [hdig.2.2.1, hdig.2.2.2]
      rw [if_pos (by norm_num)]
      have hlt' : number / 128 < 128 ^ r := by
        have h128 : (0:Nat) < 128 := by norm_num
        rw [Nat.div_lt_iff_lt_mul h128]
        calc number < 128 ^ (r + 1) := hlt
          _ = 128 ^ r * 128 := by rw [pow_succ]
      rw [ih (number / 128) (pos + 1) (multiplier * 128)
          (acc + number % 128 * multiplier) hr hlt']
      simp only [Option.some.injEq, Prod.mk.injEq, List.length_cons]
      constructor
      · conv_rhs => rw [← Nat.mod_add_div number 128]
        ring
      · omega
    · have hn : number < 128 := by
        have := Nat.div_eq_of_lt (a := number) (b := 128)
        by_contra hge
        have : 128 ≤ number := by omega
        have : 1 ≤ number / 128 := Nat.one_le_div_iff (by norm_num) |>.mpr this
        omega
      have hmod : number % 128 = number := Nat.mod_eq_of_lt hn
      have henc : encodeMBIGo number (r + 1) = [number % 128] := by
        rw [encodeMBIGo]
        simp only [h7]
        rw [if_neg hpos]
      rw [henc]
      rw [decodeMBIGo]
      simp only [hdig.1, hdig.2.1]
      rw [if_neg (by norm_num)]
      simp only [Option.some.injEq, Prod.mk.injEq, List.length_singleton, hmod]

/-- C4: for every `n` in `[0, 268435455]`, feeding the bytes produced by
    `encodeMBI n` to the decoder's remaining-length loop (multiplier 1,
    accumulator 0) yields `n` again, consuming exactly the encoded bytes:
    the MBI round-trip is the identity on that range. -/
theorem mbi_roundtrip (n : Nat) (h : n ≤ 268435455) :
    decodeMBIGo (encodeMBI n) 0 1 0 = some (n, (encodeMBI n).length) := by
  have h4 : n < 128 ^ 4 := by norm_num at h ⊢; omega
  have := decodeMBIGo_encodeMBIGo 4 n 0 1 0 (by norm_num) h4
  simpa [encodeMBI] using this

theorem mbi_roundtrip_witness :
    12345678 ≤ 268435455 ∧
      decodeMBIGo (encodeMBI 12345678) 0 1 0 = some (12345678, (encodeMBI 12345678).length) :=
  ⟨by norm_num, mbi_roundtrip 12345678 (by norm_num)⟩

/-! ## Theorems: the QoS-1 publish path -/

theorem messageSetDestinationName_eq (stack : Nat) (v : JSString) :
    messageSetDestinationName stack v = .error .RANGE_ERROR := by
  induction stack with
  | zero => rfl
  | succ n ih => simpa [messageSetDestinationName] using ih

/-- C3: `publish("a/b", "hi", qos=1)` emits no wire bytes at all: whatever
    the JS stack bound, the call throws a stack-overflow `RangeError` inside
    `message.destinationName = topic` (ClientImplementation.ts:401) —
    Message.ts's `destinationName` accessor pair assigns through itself —
    before the connected-state check, before any `WireMessage` is built and
    before anything reaches the transport.  (The claimed byte string is
    also internally inconsistent: its remaining-length byte `0x07` does not
    match its own 9 content bytes.) -/
theorem publish_crashes_before_emitting (stack : Nat) :
    sendTopicPayloadQos stack topicAB 1 = .error .RANGE_ERROR
    ∧ messageSetDestinationName stack topicAB = .error .RANGE_ERROR := by
  refine ⟨?_, messageSetDestinationName_eq stack topicAB⟩
  rw [sendTopicPayloadQos, messageSetDestinationName_eq stack topicAB]
  rfl

/-! ## Theorems: five-byte MBI handling in the decoder -/

/-- C5: the decoder's remaining-length loop has no four-byte cap.  A frame
    whose length field carries four continuation bytes (so a 5th MBI byte is
    required) is not treated as malformed: `20 80 80 80 80 00 01 00` decodes
    as a CONNACK packet (the five length bytes sum to 0), and
    `20 80 80 80 80 02` — which declares `2 * 128^4` remaining bytes —
    returns the partial-frame signal `(null, startingOffset)`, leaving the
    caller waiting forever. -/
theorem five_byte_mbi_accepted :
    decodeMessage fiveByteMBIFrame 0 =
      .packet { type := MESSAGE_TYPE_CONNACK, sessionPresent := true,
                returnCode := some (.code 0) } 6
    ∧ decodeMessage fiveByteMBIHugeFrame 0 = .needMore 0 := by
  constructor
  · decide
  · decide

/-! ## Theorems: UTF-8 surrogate handling -/

/-- C6 counterexample: `"\uD800a"` has a high surrogate not followed by a
    low surrogate, yet `stringToUTF8` raises no `MALFORMED_UNICODE`: the
    next unit is consumed unchecked and blindly combined, silently emitting
    the garbage 3-byte sequence `E2 91 A1`. -/
theorem stranded_surrogate_counterexample :
    stringToUTF8 strandedHighSurrogate (List.replicate 3 0) 0 = .ok [0xe2, 0x91, 0xa1] := by
  rfl

/-- C6 (amended): `stringToUTF8` raises `MALFORMED_UNICODE` only when a high
    surrogate is the final UTF-16 unit of the input (the `charCodeAt(++i)`
    lookahead is `NaN`); a high surrogate followed by any unit consumes that
    unit and combines it unchecked.  When the next unit is a genuine low
    surrogate the combined code point exceeds `0xffff` and is emitted as a
    single 4-byte UTF-8 sequence. -/
theorem surrogate_pair_handling :
    (∀ (hi : Nat) (output : List Nat) (pos : Nat),
        0xd800 ≤ hi → hi ≤ 0xdbff →
        stringToUTF8Go [hi] output pos = .error .MALFORMED_UNICODE)
    ∧ (∀ (hi low : Nat) (rest : JSString) (output : List Nat) (pos : Nat),
        0xd800 ≤ hi → hi ≤ 0xdbff → 0xdc00 ≤ low → low ≤ 0xdfff →
        0xffff < surrogateCombine hi low
        ∧ (utf8Emit (surrogateCombine hi low) output pos).2 = pos + 4
        ∧ stringToUTF8Go (hi :: low :: rest) output pos =
            stringToUTF8Go rest (utf8Emit (surrogateCombine hi low) output pos).1 (pos + 4)) := by
  constructor
  · intro hi output pos h1 h2
    rw [stringToUTF8Go]
    rw [if_pos ⟨h1, h2⟩]
  · intro hi low rest output pos h1 h2 h3 h4
    have hcc : 0xffff < surrogateCombine hi low := by
      unfold surrogateCombine
      omega
    have hsnd : (utf8Emit (surrogateCombine hi low) output pos).2 = pos + 4 := by
      unfold utf8Emit
      rw [if_neg (by omega), if_neg (by omega), if_neg (by omega)]
    refine ⟨hcc, hsnd, ?_⟩
    rw [stringToUTF8Go]
    rw [if_pos ⟨h1, h2⟩]
    rcases hu : utf8Emit (surrogateCombine hi low) output pos with ⟨out', pos'⟩
    have hpos' : pos' = pos + 4 := by
      rw [hu] at hsnd
      exact hsnd
    simp only [hu, hpos']

/-- Witness for the amended C6 at the surrogate pair of `"𝄞"` (U+1D11E). -/
theorem surrogate_pair_handling_witness :
    (0xd800 ≤ 0xd834 ∧ 0xd834 ≤ 0xdbff ∧ 0xdc00 ≤ 0xdd1e ∧ 0xdd1e ≤ 0xdfff)
    ∧ (0xffff < surrogateCombine 0xd834 0xdd1e
       ∧ (utf8Emit (surrogateCombine 0xd834 0xdd1e) (List.replicate 4 0) 0).2 = 0 + 4
       ∧ stringToUTF8Go [0xd834, 0xdd1e] (List.replicate 4 0) 0 =
           stringToUTF8Go []
             (utf8Emit (surrogateCombine 0xd834 0xdd1e) (List.replicate 4 0) 0).1 (0 + 4)) :=
  ⟨⟨by norm_num, by norm_num, by norm_num, by norm_num⟩,
   surrogate_pair_handling.2 0xd834 0xdd1e [] (List.replicate 4 0) 0
     (by norm_num) (by norm_num) (by norm_num) (by norm_num)⟩

/-! ## Theorems: multi-host failover -/

/-- C7: with two URIs and a failure while trying the first (`hostIndex = 0`,
    before CONNACK), `_disconnected` does NOT try the next URI — the guard
    `this.hostIndex &&` is falsy at index 0, so the decision falls straight
    through to the protocol-version fallback (or, with an explicit version,
    to `onFailure`).  From `uris[1]` of three URIs the failover does fire,
    isolating the truthiness guard as the cause. -/
theorem failover_skipped_at_first_uri :
    disconnectedAction failoverFirstUriState (some 7) = .versionFallback
    ∧ disconnectedAction { failoverFirstUriState with mqttVersionExplicit := true } (some 7) =
        .notifyOnFailure
    ∧ disconnectedAction failoverSecondUriState (some 7) = .tryNextHost 2 := by
  refine ⟨by decide, by decide, by decide⟩

/-! ## Theorems: reconnect backoff -/

/-- C9 counterexample: a persisted PUBLISH record with `version = 2` is
    neither rejected as `INVALID_STORED_DATA` nor inserted anywhere:
    `restore` never reads `version`, and the reconstruction crashes with a
    stack-overflow `RangeError` in Message's self-recursive `qos` setter
    (ClientImplementation.ts:585) before any Outbox insert. -/
theorem restore_ignores_version_counterexample :
    restore .sentKey publishRecordV2 = .error .RANGE_ERROR
    ∧ (Except.error .RANGE_ERROR : Except MqttErr RestoreOutcome) ≠
        .error .INVALID_STORED_DATA
    ∧ publishRecordV2.version ≠ 1 := by
  refine ⟨by rfl, ?_, by decide⟩
  intro h
  exact MqttErr.noConfusion (Except.error.inj h)

/-- C9 (amended): `restore` never examines the `version` field — any version
    restores identically.  A record whose type is not PUBLISH is rejected as
    `INVALID_STORED_DATA`; a PUBLISH record, whatever its version, is not
    reconstructed or inserted either: the first property copy enters
    Message's self-recursive `qos` setter, so `restore` throws (a
    stack-overflow `RangeError` for a stored qos of 0, 1 or 2, the setter's
    invalid-argument error otherwise) and never returns an outcome. -/
theorem restore_rejects_by_type :
    (∀ (kind : StoredKeyKind) (sm : StoredMessage), sm.type ≠ MESSAGE_TYPE_PUBLISH →
        restore kind sm = .error .INVALID_STORED_DATA)
    ∧ (∀ (kind : StoredKeyKind) (sm : StoredMessage) (v : Nat),
        restore kind { sm with version := v } = restore kind sm)
    ∧ (∀ (kind : StoredKeyKind) (sm : StoredMessage) (out : RestoreOutcome),
        restore kind sm ≠ .ok out) := by
  refine ⟨?_, ?_, ?_⟩
  · intro kind sm h
    unfold restore
    rw [if_neg h]
  · intro kind sm v
    rfl
  · intro kind sm out h
    unfold restore at h
    by_cases ht : sm.type = MESSAGE_TYPE_PUBLISH
    · rw [if_pos ht] at h
      split at h
      · exact Except.noConfusion h
      · exact Except.noConfusion h
    · rw [if_neg ht] at h
      exact Except.noConfusion h

/-- `store` likewise never completes: nothing is ever written to the
    persistence layer (the write side of the C9 schema). -/
theorem store_never_completes (prefixSent : Bool) (w : WireMessage) (seqCounter : Nat)
    (sm : StoredMessage) : store prefixSent w seqCounter ≠ .ok sm := by
  intro h
  unfold store at h
  by_cases ht : w.type = MESSAGE_TYPE_PUBLISH
  · rw [if_pos ht] at h
    cases hpm : w.payloadMessage with
    | none => rw [hpm] at h; exact Except.noConfusion h
    | some pm => rw [hpm] at h; exact Except.noConfusion h
  · rw [if_neg ht] at h
    exact Except.noConfusion h

/-- Witness for the amended C9: a stored SUBSCRIBE record (type 8) is
    rejected as `INVALID_STORED_DATA`. -/
theorem restore_rejects_by_type_witness :
    (({ type := 8, messageIdentifier := 1, version := 1 } : StoredMessage).type ≠
        MESSAGE_TYPE_PUBLISH)
    ∧ restore .sentKey { type := 8, messageIdentifier := 1, version := 1 } =
        .error .INVALID_STORED_DATA :=
  ⟨by decide, restore_rejects_by_type.1 .sentKey _ (by decide)⟩

/-! ## Theorems: zero messageIdentifier is skipped by the encoder -/

/-- C10: `writeUint16` returns buffer and offset unchanged on input 0, the
    remaining-length computation adds no identifier bytes when
    `messageIdentifier = 0`, and a PUBACK with messageIdentifier 0 (whatever
    its other fields) encodes as exactly the two bytes `40 00`. -/
theorem zero_messageIdentifier_skipped :
    (∀ (buffer : List Nat) (offset : Nat), writeUint16 0 buffer offset = (buffer, offset))
    ∧ (∀ w : WireMessage, w.type = MESSAGE_TYPE_PUBACK → w.messageIdentifier = 0 →
        encodeHeaderInfo w = (0x40, 0, 0) ∧ WireMessage.encode w = .ok [0x40, 0x00]) := by
  constructor
  · intro buffer offset
    rw [writeUint16, if_pos rfl]
  · intro w ht hm
    have hinfo : encodeHeaderInfo w = (0x40, 0, 0) := by
      unfold encodeHeaderInfo
      rw [ht, hm]
      norm_num [MESSAGE_TYPE_CONNECT, MESSAGE_TYPE_SUBSCRIBE, MESSAGE_TYPE_UNSUBSCRIBE,
        MESSAGE_TYPE_PUBREL, MESSAGE_TYPE_PUBLISH, MESSAGE_TYPE_PUBACK]
      decide
    refine ⟨hinfo, ?_⟩
    unfold WireMessage.encode
    rw [hinfo, ht, hm]
    norm_num [MESSAGE_TYPE_CONNECT, MESSAGE_TYPE_SUBSCRIBE, MESSAGE_TYPE_UNSUBSCRIBE,
      MESSAGE_TYPE_PUBREL, MESSAGE_TYPE_PUBLISH, MESSAGE_TYPE_PUBACK, MESSAGE_TYPE_CONNACK]
    try rfl

/-- Witness for C10 at the bare PUBACK message. -/
theorem zero_messageIdentifier_witness :
    (({ type := MESSAGE_TYPE_PUBACK } : WireMessage).type = MESSAGE_TYPE_PUBACK
      ∧ ({ type := MESSAGE_TYPE_PUBACK } : WireMessage).messageIdentifier = 0)
    ∧ (encodeHeaderInfo { type := MESSAGE_TYPE_PUBACK } = (0x40, 0, 0)
       ∧ WireMessage.encode { type := MESSAGE_TYPE_PUBACK } = .ok [0x40, 0x00]) :=
  ⟨⟨rfl, rfl⟩, zero_messageIdentifier_skipped.2 _ rfl rfl⟩

end GeneralMqtt
